import Mathlib

/-!
A verification development for the disaster-event-statistics pipeline in
`PA4.py` (a Streamlit app).  The pipeline logic is embedded shallowly:

* text is `List Char`; Python `str.strip` / `str.replace` / `str.startswith`
  are modelled character by character;
* `json.loads` (an external library call) is embedded as a recursive-descent
  parser `json_loads` for the JSON grammar (numbers are kept as their lexemes,
  since no pipeline step inspects numeric values; `\u` string escapes are not
  modelled; surrounding whitespace, which `json.loads` ignores, is trimmed up
  front);
* `pd.to_datetime(..., errors='coerce')` applied to a cell is an opaque
  external parser, taken as a parameter `toDT : J → Option Int` (an absent
  cell is `NaN`, which `to_datetime` maps to `NaT`, modelled by `none`);
* the Gemini client is an opaque parameter `svc` returning either the
  response text or an error;
* `st.error`/`st.stop` outcomes become constructors of `Result`.  A run is
  modelled up to the point where the accepted table is rendered
  (`st.dataframe`, line 226) and the display sequence numbers are assigned
  from the sorted DataFrame's index (line 232); chart construction after
  that point is not modelled.
-/

/-! ## Python `str.strip` -/

/-- The ASCII whitespace stripped by Python `str.strip()` (the Unicode
whitespace beyond ASCII is not needed by any claim). -/
def pyIsSpace (c : Char) : Bool :=
  c = ' ' || c = '\t' || c = '\n' || c = '\r' || c = '\u000B' || c = '\u000C'

/-- Python `s.strip()`: remove leading and trailing whitespace. -/
def pstrip (l : List Char) : List Char :=
  ((l.dropWhile pyIsSpace).reverse.dropWhile pyIsSpace).reverse

/-! ## Fence stripping, `PA4.py` lines 168-172

```python
json_output = response_extract.text.strip()
if json_output.startswith('```'):
    json_output = json_output.strip().replace('```json', '').replace('```', '')
```
Python `str.replace` deletes every occurrence, scanning left to right,
non-overlapping. -/

/-- `s.startswith('```')`. -/
def startsTicks (l : List Char) : Bool :=
  match l with
  | c1 :: c2 :: c3 :: _ => c1 = '`' && c2 = '`' && c3 = '`'
  | _ => false

/-- `s.replace('```json', '')`: left-to-right deletion of every occurrence. -/
def stripJsonTag : List Char → List Char
  | '`' :: '`' :: '`' :: 'j' :: 's' :: 'o' :: 'n' :: rest => stripJsonTag rest
  | c :: rest => c :: stripJsonTag rest
  | [] => []

/-- `s.replace('```', '')`: left-to-right deletion of every occurrence. -/
def stripTicks : List Char → List Char
  | '`' :: '`' :: '`' :: rest => stripTicks rest
  | c :: rest => c :: stripTicks rest
  | [] => []

/-- Lines 168-172: strip, then if the text starts with a fence, strip again
and delete every occurrence of the tagged and the bare fence marker. -/
def preprocess (raw : List Char) : List Char :=
  let j := pstrip raw
  if startsTicks j then stripTicks (stripJsonTag (pstrip j)) else j

/-- Whether the text starts with the seven characters of a tagged fence
opener. -/
def startsJsonTag (l : List Char) : Bool :=
  startsTicks l && decide (List.take 4 (List.drop 3 l) = ['j', 's', 'o', 'n'])

/-- Whether the text contains three consecutive backticks anywhere. -/
def hasTB : List Char → Bool
  | [] => false
  | c :: rest => startsTicks (c :: rest) || hasTB rest

/-- Whether the text contains the seven characters of a tagged fence
opener anywhere. -/
def hasJsonTag : List Char → Bool
  | [] => false
  | c :: rest => startsJsonTag (c :: rest) || hasJsonTag rest

/-- The length of the leading run of backticks. -/
def leadTicks : List Char → Nat
  | [] => 0
  | c :: rest => if c = '`' then 1 + leadTicks rest else 0

/-! ## `json.loads`, embedded -/

/-- JSON values.  A number is kept as its lexeme: no pipeline step that the
claims touch inspects a numeric value, and this avoids modelling Python
floats. -/
inductive J where
  | str (s : String)
  | num (lexeme : String)
  | bool (b : Bool)
  | null
  | arr (xs : List J)
  | obj (kvs : List (String × J))

/-- JSON insignificant whitespace (RFC 8259: space, tab, newline, return). -/
def isJsonWs (c : Char) : Bool :=
  c = ' ' || c = '\t' || c = '\n' || c = '\r'

/-- Drop leading JSON whitespace. -/
def skipWs (l : List Char) : List Char := l.dropWhile isJsonWs

/-- Trim JSON whitespace from both ends.  `json.loads` ignores surrounding
whitespace; folding that into a single trim up front keeps the decoder
extensionally equal to the scanner that skips it in place. -/
def trimWs (l : List Char) : List Char :=
  ((l.dropWhile isJsonWs).reverse.dropWhile isJsonWs).reverse

/-- JSON string body, after the opening quote.  Returns the decoded content
and the rest after the closing quote.  Raw control characters are rejected
(`json.loads` default `strict=True`); `\u` escapes are not modelled. -/
def parseJStr : List Char → Option (List Char × List Char)
  | '"' :: rest => some ([], rest)
  | '\\' :: e :: rest =>
    match
      (if e = '"' then some '"'
       else if e = '\\' then some '\\'
       else if e = '/' then some '/'
       else if e = 'n' then some '\n'
       else if e = 't' then some '\t'
       else if e = 'r' then some '\r'
       else if e = 'b' then some '\u0008'
       else if e = 'f' then some '\u000C'
       else none) with
    | some c => (parseJStr rest).map (fun p => (c :: p.1, p.2))
    | none => none
  | c :: rest =>
    if c.toNat < 32 then none
    else (parseJStr rest).map (fun p => (c :: p.1, p.2))
  | [] => none

/-- Exponent tail of a JSON number lexeme: after the `e`/`E`, an optional
sign and at least one digit. -/
def parseExpTail (lex : List Char) (ec : Char) (r : List Char) :
    Option (List Char × List Char) :=
  let es : List Char := match r with
    | '+' :: _ => ['+']
    | '-' :: _ => ['-']
    | _ => []
  let r1 : List Char := match r with
    | '+' :: rr => rr
    | '-' :: rr => rr
    | _ => r
  let xs := r1.takeWhile Char.isDigit
  let r2 := r1.dropWhile Char.isDigit
  if xs.isEmpty then none else some (lex ++ ec :: (es ++ xs), r2)

/-- Optional exponent part of a JSON number lexeme. -/
def parseExpPart (lex : List Char) (l : List Char) :
    Option (List Char × List Char) :=
  match l with
  | 'e' :: r => parseExpTail lex 'e' r
  | 'E' :: r => parseExpTail lex 'E' r
  | _ => some (lex, l)

/-- JSON number lexeme: `-? int frac? exp?` with the no-leading-zero rule.
Returns the consumed lexeme and the rest. -/
def parseJNum (l : List Char) : Option (List Char × List Char) :=
  let sign : List Char := match l with
    | '-' :: _ => ['-']
    | _ => []
  let l1 : List Char := match l with
    | '-' :: r => r
    | _ => l
  let ds := l1.takeWhile Char.isDigit
  let l2 := l1.dropWhile Char.isDigit
  if ds.isEmpty then none
  else if 1 < ds.length && ds.head? = some '0' then none
  else match l2 with
    | '.' :: r =>
      let fs := r.takeWhile Char.isDigit
      let l3 := r.dropWhile Char.isDigit
      if fs.isEmpty then none
      else parseExpPart (sign ++ ds ++ '.' :: fs) l3
    | _ => parseExpPart (sign ++ ds) l2

mutual

/-- One JSON value, fuel-indexed.  The grammar follows `json.loads`:
strings, numbers, `true`/`false`/`null`, arrays and objects, with
insignificant whitespace skipped between tokens. -/
def parseVal : Nat → List Char → Option (J × List Char)
  | 0, _ => none
  | Nat.succ fuel, s =>
    match skipWs s with
    | '"' :: r => (parseJStr r).map (fun p => (J.str (String.mk p.1), p.2))
    | '[' :: r =>
      (match skipWs r with
       | ']' :: r2 => some (J.arr [], r2)
       | _ => (parseArrItems fuel (skipWs r)).map (fun p => (J.arr p.1, p.2)))
    | '{' :: r =>
      (match skipWs r with
       | '}' :: r2 => some (J.obj [], r2)
       | _ => (parseObjItems fuel (skipWs r)).map (fun p => (J.obj p.1, p.2)))
    | 't' :: 'r' :: 'u' :: 'e' :: r => some (J.bool true, r)
    | 'f' :: 'a' :: 'l' :: 's' :: 'e' :: r => some (J.bool false, r)
    | 'n' :: 'u' :: 'l' :: 'l' :: r => some (J.null, r)
    | c :: r =>
      if c = '-' || c.isDigit then
        (parseJNum (c :: r)).map (fun p => (J.num (String.mk p.1), p.2))
      else none
    | [] => none

/-- Comma-separated values up to the closing `]` (nonempty case). -/
def parseArrItems : Nat → List Char → Option (List J × List Char)
  | 0, _ => none
  | Nat.succ fuel, s =>
    match parseVal fuel s with
    | none => none
    | some (v, r) =>
      match skipWs r with
      | ',' :: r2 =>
        (match parseArrItems fuel (skipWs r2) with
         | some (vs, r3) => some (v :: vs, r3)
         | none => none)
      | ']' :: r2 => some ([v], r2)
      | _ => none

/-- Comma-separated `"key": value` pairs up to the closing brace
(nonempty case). -/
def parseObjItems : Nat → List Char → Option (List (String × J) × List Char)
  | 0, _ => none
  | Nat.succ fuel, s =>
    match skipWs s with
    | '"' :: r =>
      (match parseJStr r with
       | none => none
       | some (kcs, r1) =>
         match skipWs r1 with
         | ':' :: r2 =>
           (match parseVal fuel (skipWs r2) with
            | none => none
            | some (v, r3) =>
              match skipWs r3 with
              | ',' :: r4 =>
                (match parseObjItems fuel (skipWs r4) with
                 | some (kvs, r5) => some ((String.mk kcs, v) :: kvs, r5)
                 | none => none)
              | '}' :: r4 => some ([(String.mk kcs, v)], r4)
              | _ => none)
         | _ => none)
    | _ => none

end

/-- `json.loads`: decode one JSON document; reject trailing non-whitespace
(`Extra data`).  The fuel `2 * length + 8` dominates the recursion depth,
which consumes at least one character every second call. -/
def json_loads (t : List Char) : Option J :=
  let s := trimWs t
  match parseVal (2 * s.length + 8) s with
  | some (v, r) => if skipWs r = [] then some v else none
  | none => none

/-! ## The validation pipeline, `PA4.py` lines 174-233 -/

/-- Lower cardinality bound (`MIN_EVENTS`, line 26). -/
def MIN_EVENTS : Nat := 10

/-- Upper cardinality bound (`MAX_EVENTS`, line 27). -/
def MAX_EVENTS : Nat := 100

/-- The time field's Thai key. -/
def timeKey : String := "เวลา"

/-- Key lookup in a decoded JSON object.  `json.loads` builds a Python
`dict`, where a duplicated key keeps its last value, hence the reverse. -/
def lookupLast (kvs : List (String × J)) (k : String) : Option J :=
  (kvs.reverse.find? (fun p => p.1 = k)).map (fun p => p.2)

/-- The value of a record's field; a non-object record has none (its cell
in the DataFrame would be `NaN`). -/
def getField (r : J) (k : String) : Option J :=
  match r with
  | J.obj kvs => lookupLast kvs k
  | _ => none

/-- Line 207: `pd.to_datetime(df['เวลา'], errors='coerce')` on one record.
`toDT` is the external datetime parser; a record without the key holds
`NaN`, which `to_datetime` coerces to `NaT` (`none`). -/
def timeVal (toDT : J → Option Int) (r : J) : Option Int :=
  (getField r timeKey).bind toDT

/-- The sort key of a kept record (all kept records have a parsed time). -/
def sortKey (toDT : J → Option Int) (r : J) : Int :=
  (timeVal toDT r).getD 0

/-- Whether a decoded element is a JSON object (a Python `dict`). -/
def isObj : J → Bool
  | J.obj _ => true
  | _ => false

/-- Line 232: `df['ลำดับ_ชั่วคราว'] = df.index + 1` after
`reset_index(drop=True)` — pair each row with `position + 1`. -/
def attachSeq (i : Nat) : List J → List (J × Nat)
  | [] => []
  | r :: rest => (r, i) :: attachSeq (i + 1) rest

/-- The outcome of one run of the pipeline, up to the rendered table.
Every error constructor carries the text that the error path displays with
`st.code(json_output)` (where it does display one). -/
inductive Result where
  /-- Line 282: falsy `json_output`, warning only. -/
  | emptyOutput
  /-- Lines 274-278: `json.JSONDecodeError`. -/
  | malformedJson (displayed : List Char)
  /-- A payload that decodes to a non-array: `len(data)` and
  `pd.DataFrame(data)` then duck-type; no claim reaches this path, and it
  is collapsed to a marker. -/
  | nonArray (displayed : List Char)
  /-- Lines 185-189: `num_events < MIN_EVENTS`. -/
  | insufficient (displayed : List Char) (n : Nat)
  /-- Lines 191-195: `num_events > MAX_EVENTS`. -/
  | excessive (displayed : List Char) (n : Nat)
  /-- Lines 197-202: `num_events == 0`. -/
  | noData (displayed : List Char)
  /-- Lines 279-280: an exception raised at the DataFrame stage is caught
  by the generic `except Exception` handler — `pd.DataFrame(data)` (line
  204) raises `AttributeError` on a non-dict among dict records, and
  `df['เวลา']` (line 207) raises `KeyError` when the frame has no such
  column (no dict supplies the key, or the elements were not dicts at all
  and the columns are positional). -/
  | processingError (displayed : List Char)
  /-- Lines 204-232: the table is rendered; rows in final order, each with
  its 1-based display sequence number. -/
  | accepted (rows : List (J × Nat))

/-- Lines 182-232 on a decoded array: count checks against the decoded
count, then the DataFrame steps.  A non-object element makes the DataFrame
stage raise — `pd.DataFrame(data)` raises `AttributeError` when the first
element is a dict and a later one is not, and otherwise builds positional
columns so that `df['เวลา']` raises `KeyError` — and the generic handler
reports a processing error; the same happens when every element is an
object but none carries the time key, so the column does not exist.
Otherwise: parse the time column, drop rows whose time did not parse, sort
ascending by parsed time, reset the index and attach `index + 1`.
`pandas.sort_values` uses an unstable quicksort; it is modelled by a sort
with the same key (no claim depends on the order of ties). -/
def validate (toDT : J → Option Int) (displayed : List Char)
    (data : List J) : Result :=
  let n := data.length
  if n < MIN_EVENTS then Result.insufficient displayed n
  else if n > MAX_EVENTS then Result.excessive displayed n
  else if n = 0 then Result.noData displayed
  else if !(data.all (fun r => isObj r)) then
    Result.processingError displayed
  else if data.all (fun r => (getField r timeKey).isNone) then
    Result.processingError displayed
  else
    let kept := data.filter (fun r => (timeVal toDT r).isSome)
    let sorted := kept.insertionSort
      (fun a b => sortKey toDT a ≤ sortKey toDT b)
    Result.accepted (attachSeq 1 sorted)

/-- Lines 168-232: the whole run from the extraction response's text —
strip fences, `if json_output:`, `json.loads`, then validation. -/
def fullPipeline (toDT : J → Option Int) (raw : List Char) : Result :=
  let jsonOutput := preprocess raw
  if jsonOutput = [] then Result.emptyOutput
  else
    match json_loads jsonOutput with
    | none => Result.malformedJson jsonOutput
    | some (J.arr data) => validate toDT jsonOutput data
    | some _ => Result.nonArray jsonOutput

/-! ## The displayed table, lines 214-226 -/

/-- The fixed display column order (`display_cols`, lines 215-222). -/
def display_cols : List String :=
  ["เวลา", "มูลค่าความเสียหาย(บาท)", "ผู้เสียชีวิต(คน)", "ผู้บาดเจ็บ(คน)",
   "แหล่งที่มา", "รายละเอียดของเหตุการณ์"]

/-- One cell of the displayed table. -/
inductive DCell where
  /-- The record's own value. -/
  | val (j : J)
  /-- The column exists in the DataFrame but this record lacks the key:
  `pd.DataFrame` filled the cell with `NaN`. -/
  | nan
  /-- The column is absent from the DataFrame altogether:
  `df.reindex(columns=display_cols, fill_value='')` filled it with `''`. -/
  | empty

/-- Whether the DataFrame built from the decoded records has column `c`:
`pd.DataFrame(data)` takes the union of the records' keys. -/
def columnPresent (data : List J) (c : String) : Bool :=
  data.any (fun r => (getField r c).isSome)

/-- Line 224, one cell: `df.reindex(columns=display_cols, fill_value='')`
fills only columns absent from the DataFrame; a missing key in a present
column stays `NaN`. -/
def displayCell (data : List J) (r : J) (c : String) : DCell :=
  if columnPresent data c then
    match getField r c with
    | some j => DCell.val j
    | none => DCell.nan
  else DCell.empty

/-- Line 224, one row of `df_display`. -/
def displayRow (data : List J) (r : J) : List DCell :=
  display_cols.map (fun c => displayCell data r c)

/-! ## Translation stage, `PA4.py` lines 30-43 and 136-141 -/

/-- Python `str.strip` on `String`. -/
def pstripS (s : String) : String := String.mk (pstrip s.data)

/-- Line 37: the translation instruction sent to the model. -/
def translatePrompt (text : String) : String :=
  "Translate the following Thai text to English: " ++ "'" ++ text ++ "'"

/-- Lines 30-43, `translate_to_english`: ask the Generation Service to
translate; on success return the stripped response text, on any exception
fall back to the untranslated input.  `svc` is the external client:
`Except.error` covers both a failed call and a `None` response text (whose
`.strip()` raises inside the same `try`). -/
def translate_to_english (svc : String → Except String String)
    (text : String) : String :=
  match svc (translatePrompt text) with
  | Except.ok r => pstripS r
  | Except.error _ => text

/-- Lines 136-141: translate both inputs, then
`if not event_type_en or not location_en: st.stop()` — `none` is the halt
(`st.stop`), `some` carries the two translations onward.  A Python string
is falsy exactly when it is empty. -/
def translateStage (svc : String → Except String String)
    (event_type_th location_th : String) : Option (String × String) :=
  let e := translate_to_english svc event_type_th
  let l := translate_to_english svc location_th
  if e = "" || l = "" then none else some (e, l)

/-! ## Generation-call configurations (claim C8) -/

/-- The fields of `types.GenerateContentConfig` that `PA4.py` ever sets; an
unset field is the provider default.  The only temperature in the source is
the exact float `0.0`, written here as `0`. -/
structure GenConfig where
  /-- `temperature=...`; `none` = not passed (provider default). -/
  temperature : Option Nat
  /-- Whether `tools=[{"google_search": {}}]` is passed. -/
  google_search : Bool
  /-- `system_instruction=...`; `none` = not passed. -/
  system_instruction : Option String

/-- Line 38: the translation call's config,
`GenerateContentConfig(temperature=0.0)`. -/
def translateCallConfig : GenConfig := ⟨some 0, false, none⟩

/-- Lines 82-84: the research call's config,
`GenerateContentConfig(tools=[{"google_search": {}}])`. -/
def researchCallConfig : GenConfig := ⟨none, true, none⟩

/-- Lines 163-165: the extraction call's config,
`GenerateContentConfig(system_instruction=system_prompt_extract)`. -/
def extractCallConfig (system_prompt_extract : String) : GenConfig :=
  ⟨none, false, some system_prompt_extract⟩

/-! ## The geospatial CSV pipeline (claim C9) -/

/-- Modelled from the spec: the geospatial extraction tool (the "second
tool" of the spec, with the `GeoRecord` schema and `MalformedTableError`)
is not present in `src/PA4.py`; only the event-statistics tool is.  The
declared header schema of §3. -/
def GEO_HEADERS : List String :=
  ["ID_EVENT", "LOCATION_NAME", "LATITUDE_EST", "LONGITUDE_EST",
   "EVENT_TYPE", "MAGNITUDE_SIZE", "DAMAGE_SUMMARY"]

/-- Modelled from the spec: the CSV parser's outcome — either the decoded
rows or a distinct `MalformedTableError` carrying the raw text. -/
inductive GeoResult where
  /-- Decoded data rows. -/
  | ok (rows : List (List (List Char)))
  /-- `MalformedTableError`, retaining the raw text for display. -/
  | malformedTable (raw : List Char)

/-- Split on a separator character (Python `str.split(sep)`: always at
least one piece; an empty text gives one empty piece). -/
def splitCh (sep : Char) (l : List Char) : List (List Char) :=
  l.foldr
    (fun c acc =>
      match acc with
      | [] => [[c]]
      | cur :: rest => if c = sep then [] :: (cur :: rest) else (c :: cur) :: rest)
    [[]]

/-- Modelled from the spec: "decode as delimited text with a header row
matching the declared schema; a decode/row-shape failure is a distinct
`MalformedTableError` carrying the raw text for diagnostics."  The first
line is the header; a header missing any required column is the failure. -/
def parseGeoTable (raw : List Char) : GeoResult :=
  match splitCh '\n' raw with
  | [] => GeoResult.malformedTable raw
  | header :: body =>
    let cols := splitCh ',' header
    if GEO_HEADERS.all (fun h => cols.contains h.data) then
      GeoResult.ok (body.map (fun line => splitCh ',' line))
    else GeoResult.malformedTable raw

/-! ## Concrete instances used by witnesses and counterexamples -/

/-- A concrete instance of the external datetime parser: the month columns
of 2023 parse to 1..12, everything else (including "not-a-date" and absent
cells) does not. -/
def cdt : J → Option Int
  | J.str "2023-01" => some 1
  | J.str "2023-02" => some 2
  | J.str "2023-03" => some 3
  | J.str "2023-04" => some 4
  | J.str "2023-05" => some 5
  | J.str "2023-06" => some 6
  | J.str "2023-07" => some 7
  | J.str "2023-08" => some 8
  | J.str "2023-09" => some 9
  | J.str "2023-10" => some 10
  | J.str "2023-11" => some 11
  | J.str "2023-12" => some 12
  | _ => none

/-- A record with only the time field. -/
def recT (t : String) : J := J.obj [("เวลา", J.str t)]

/-- A record with the time field and a source field. -/
def recTS (t s : String) : J := J.obj [("เวลา", J.str t), ("แหล่งที่มา", J.str s)]

/-- Ten records, times in descending order (claim C1's witness). -/
def rawC1 : List Char :=
  ("[\x7b\"เวลา\":\"2023-10\"\x7d,\x7b\"เวลา\":\"2023-09\"\x7d," ++
   "\x7b\"เวลา\":\"2023-08\"\x7d,\x7b\"เวลา\":\"2023-07\"\x7d," ++
   "\x7b\"เวลา\":\"2023-06\"\x7d,\x7b\"เวลา\":\"2023-05\"\x7d," ++
   "\x7b\"เวลา\":\"2023-04\"\x7d,\x7b\"เวลา\":\"2023-03\"\x7d," ++
   "\x7b\"เวลา\":\"2023-02\"\x7d,\x7b\"เวลา\":\"2023-01\"\x7d]").data

/-- What `rawC1` decodes to. -/
def dataC1 : List J :=
  [recT "2023-10", recT "2023-09", recT "2023-08", recT "2023-07",
   recT "2023-06", recT "2023-05", recT "2023-04", recT "2023-03",
   recT "2023-02", recT "2023-01"]

/-- Twelve records, four with unparseable times (claim C2's witness):
the count check sees 12, the final set has 8 rows, below the minimum. -/
def rawC2 : List Char :=
  ("[\x7b\"เวลา\":\"2023-01\"\x7d,\x7b\"เวลา\":\"not-a-date\"\x7d," ++
   "\x7b\"เวลา\":\"2023-02\"\x7d,\x7b\"เวลา\":\"nope\"\x7d," ++
   "\x7b\"เวลา\":\"2023-03\"\x7d,\x7b\"เวลา\":\"bad\"\x7d," ++
   "\x7b\"เวลา\":\"2023-04\"\x7d,\x7b\"เวลา\":\"2023-05\"\x7d," ++
   "\x7b\"เวลา\":\"2023-06\"\x7d,\x7b\"เวลา\":\"2023-07\"\x7d," ++
   "\x7b\"เวลา\":\"worse\"\x7d,\x7b\"เวลา\":\"2023-08\"\x7d]").data

/-- What `rawC2` decodes to. -/
def dataC2 : List J :=
  [recT "2023-01", recT "not-a-date", recT "2023-02", recT "nope",
   recT "2023-03", recT "bad", recT "2023-04", recT "2023-05",
   recT "2023-06", recT "2023-07", recT "worse", recT "2023-08"]

/-- Ten records none of which has the time key at all (claim C2's
counterexample): the DataFrame gets no time column and `df['เวลา']`
raises. -/
def rawC2cex : List Char :=
  "[\x7b\x7d,\x7b\x7d,\x7b\x7d,\x7b\x7d,\x7b\x7d,\x7b\x7d,\x7b\x7d,\x7b\x7d,\x7b\x7d,\x7b\x7d]".data

/-- Nine keyed records plus one `null` (claim C2's counterexample, second
part): `pd.DataFrame` raises on the non-dict among dict records. -/
def rawC2mixed : List Char :=
  ("[\x7b\"เวลา\":\"2023-01\"\x7d,\x7b\"เวลา\":\"2023-02\"\x7d," ++
   "\x7b\"เวลา\":\"2023-03\"\x7d,\x7b\"เวลา\":\"2023-04\"\x7d," ++
   "\x7b\"เวลา\":\"2023-05\"\x7d,\x7b\"เวลา\":\"2023-06\"\x7d," ++
   "\x7b\"เวลา\":\"2023-07\"\x7d,\x7b\"เวลา\":\"2023-08\"\x7d," ++
   "\x7b\"เวลา\":\"2023-09\"\x7d,null]").data

/-- A fence with an uppercase language tag (claim C3's counterexample). -/
def rawC3cex : List Char := "```JSON\n[]\n```".data

/-- A fence-wrapped payload with the lowercase tag. -/
def jsonFenceWrap (mid : List Char) : List Char :=
  '`' :: '`' :: '`' :: 'j' :: 's' :: 'o' :: 'n' :: '\n' ::
    (mid ++ ('\n' :: '`' :: '`' :: '`' :: []))

/-- A fence-wrapped payload with no tag. -/
def bareFenceWrap (mid : List Char) : List Char :=
  '`' :: '`' :: '`' :: '\n' :: (mid ++ ('\n' :: '`' :: '`' :: '`' :: []))

/-- A fenced nine-record payload (claim C6's counterexample). -/
def rawC6cex : List Char :=
  ("```json\n[\x7b\"เวลา\":\"2023-01\"\x7d,\x7b\"เวลา\":\"2023-02\"\x7d," ++
   "\x7b\"เวลา\":\"2023-03\"\x7d,\x7b\"เวลา\":\"2023-04\"\x7d," ++
   "\x7b\"เวลา\":\"2023-05\"\x7d,\x7b\"เวลา\":\"2023-06\"\x7d," ++
   "\x7b\"เวลา\":\"2023-07\"\x7d,\x7b\"เวลา\":\"2023-08\"\x7d," ++
   "\x7b\"เวลา\":\"2023-09\"\x7d]\n```").data

/-- What the pipeline displays for `rawC6cex` — the stripped text, not the
raw text. -/
def dispC6cex : List Char :=
  ("\n[\x7b\"เวลา\":\"2023-01\"\x7d,\x7b\"เวลา\":\"2023-02\"\x7d," ++
   "\x7b\"เวลา\":\"2023-03\"\x7d,\x7b\"เวลา\":\"2023-04\"\x7d," ++
   "\x7b\"เวลา\":\"2023-05\"\x7d,\x7b\"เวลา\":\"2023-06\"\x7d," ++
   "\x7b\"เวลา\":\"2023-07\"\x7d,\x7b\"เวลา\":\"2023-08\"\x7d," ++
   "\x7b\"เวลา\":\"2023-09\"\x7d]\n").data

/-- An unfenced nine-record payload (claim C6's witness). -/
def rawC6w : List Char :=
  ("[\x7b\"เวลา\":\"2023-01\"\x7d,\x7b\"เวลา\":\"2023-02\"\x7d," ++
   "\x7b\"เวลา\":\"2023-03\"\x7d,\x7b\"เวลา\":\"2023-04\"\x7d," ++
   "\x7b\"เวลา\":\"2023-05\"\x7d,\x7b\"เวลา\":\"2023-06\"\x7d," ++
   "\x7b\"เวลา\":\"2023-07\"\x7d,\x7b\"เวลา\":\"2023-08\"\x7d," ++
   "\x7b\"เวลา\":\"2023-09\"\x7d]").data

/-- What `rawC6w` decodes to. -/
def dataC6w : List J :=
  [recT "2023-01", recT "2023-02", recT "2023-03", recT "2023-04",
   recT "2023-05", recT "2023-06", recT "2023-07", recT "2023-08",
   recT "2023-09"]

/-- Ten records where the first lacks the source field that the others
have (claim C7's counterexample). -/
def rawC7 : List Char :=
  ("[\x7b\"เวลา\":\"2023-01\"\x7d,\x7b\"เวลา\":\"2023-02\",\"แหล่งที่มา\":\"X\"\x7d," ++
   "\x7b\"เวลา\":\"2023-03\",\"แหล่งที่มา\":\"X\"\x7d,\x7b\"เวลา\":\"2023-04\",\"แหล่งที่มา\":\"X\"\x7d," ++
   "\x7b\"เวลา\":\"2023-05\",\"แหล่งที่มา\":\"X\"\x7d,\x7b\"เวลา\":\"2023-06\",\"แหล่งที่มา\":\"X\"\x7d," ++
   "\x7b\"เวลา\":\"2023-07\",\"แหล่งที่มา\":\"X\"\x7d,\x7b\"เวลา\":\"2023-08\",\"แหล่งที่มา\":\"X\"\x7d," ++
   "\x7b\"เวลา\":\"2023-09\",\"แหล่งที่มา\":\"X\"\x7d,\x7b\"เวลา\":\"2023-10\",\"แหล่งที่มา\":\"X\"\x7d]").data

/-- What `rawC7` decodes to. -/
def dataC7 : List J :=
  [recT "2023-01", recTS "2023-02" "X", recTS "2023-03" "X",
   recTS "2023-04" "X", recTS "2023-05" "X", recTS "2023-06" "X",
   recTS "2023-07" "X", recTS "2023-08" "X", recTS "2023-09" "X",
   recTS "2023-10" "X"]

/-- A Generation Service that always fails (claim C5's witness). -/
def svcBoom : String → Except String String :=
  fun _ => Except.error "boom"

/-- A Generation Service that returns an empty translation for the event
type "a" and a non-empty one otherwise (claim C5's counterexample). -/
def svcC5 : String → Except String String :=
  fun p => if p = translatePrompt "a" then Except.ok "" else Except.ok "B"

/-- A header row missing the LATITUDE_EST column (claim C9's witness). -/
def rawC9 : List Char :=
  ("ID_EVENT,LOCATION_NAME,LONGITUDE_EST,EVENT_TYPE,MAGNITUDE_SIZE," ++
   "DAMAGE_SUMMARY\nE1,Bangkok,100.5,flood,3,minor").data

/-- The header row of `rawC9`. -/
def geoHeaderC9 : List Char :=
  ("ID_EVENT,LOCATION_NAME,LONGITUDE_EST,EVENT_TYPE,MAGNITUDE_SIZE," ++
    "DAMAGE_SUMMARY").data

/-- The single data row of `rawC9`. -/
def geoBodyC9 : List (List Char) := ["E1,Bangkok,100.5,flood,3,minor".data]

/-- A fenced payload whose record string value contains triple backticks
(claim C10's witness). -/
def rawC10 : List Char := "```json\n[\x7b\"แหล่งที่มา\":\"a```b\"\x7d]\n```".data

/-- The payload content of `rawC10` without the fence markers. -/
def contentC10 : List Char := "[\x7b\"แหล่งที่มา\":\"a```b\"\x7d]".data

/-! ## Helper lemmas -/

theorem attachSeq_map_fst (i : Nat) (l : List J) :
    (attachSeq i l).map Prod.fst = l := by
  induction l generalizing i with
  | nil => rfl
  | cons r rest ih => simp [attachSeq, ih]

theorem attachSeq_map_snd (i : Nat) (l : List J) :
    (attachSeq i l).map Prod.snd = List.range' i l.length := by
  induction l generalizing i with
  | nil => rfl
  | cons r rest ih => simp [attachSeq, ih, List.range']

theorem attachSeq_length (i : Nat) (l : List J) :
    (attachSeq i l).length = l.length := by
  induction l generalizing i with
  | nil => rfl
  | cons r rest ih => simp [attachSeq, ih]

theorem json_loads_nil : json_loads [] = none := rfl

/-- A record whose time value parsed is in particular a JSON object (a
non-object has no fields at all). -/
theorem isObj_of_timeVal_isSome (toDT : J → Option Int) (r : J)
    (h : (timeVal toDT r).isSome = true) : isObj r = true := by
  cases r <;> first
    | rfl
    | simp [timeVal, getField] at h

/-- The branch structure of `validate` when all count checks pass, every
element is an object, and at least one record has the time key. -/
theorem validate_eq_accepted (toDT : J → Option Int) (disp : List Char)
    (data : List J)
    (h10 : MIN_EVENTS ≤ data.length) (h100 : data.length ≤ MAX_EVENTS)
    (hobj : ∀ r ∈ data, isObj r = true)
    (hkey : ∃ r ∈ data, (getField r timeKey).isSome) :
    validate toDT disp data =
      Result.accepted (attachSeq 1
        ((data.filter (fun r => (timeVal toDT r).isSome)).insertionSort
          (fun a b => sortKey toDT a ≤ sortKey toDT b))) := by
  have h1 : ¬ data.length < MIN_EVENTS := by omega
  have h2 : ¬ data.length > MAX_EVENTS := by omega
  have h0 : ¬ data.length = 0 := by
    unfold MIN_EVENTS at h10; omega
  have hao : data.all (fun r => isObj r) = true := List.all_eq_true.mpr hobj
  have hall : data.all (fun r => (getField r timeKey).isNone) = false := by
    rcases hkey with ⟨r, hr, hsome⟩
    rw [List.all_eq_false]
    refine ⟨r, hr, ?_⟩
    simp only [Option.isNone_iff_eq_none]
    intro hnone
    rw [hnone] at hsome
    exact Bool.noConfusion hsome
  unfold validate
  simp only [h1, h2, h0, hao, hall, Bool.not_true, if_false,
    Bool.false_eq_true, ite_false]

/-- When the preprocessed text decodes to an array, the pipeline is the
validator on that array. -/
theorem fullPipeline_eq_validate (toDT : J → Option Int) (raw : List Char)
    (data : List J)
    (hdec : json_loads (preprocess raw) = some (J.arr data)) :
    fullPipeline toDT raw = validate toDT (preprocess raw) data := by
  have hne : ¬ preprocess raw = [] := by
    intro h
    rw [h, json_loads_nil] at hdec
    exact Option.noConfusion hdec
  unfold fullPipeline
  simp only [hne, if_false, hdec, ite_false]

theorem startsTicks_cons_ne (c : Char) (l : List Char) (hc : ¬ c = '`') :
    startsTicks (c :: l) = false := by
  cases l with
  | nil => rfl
  | cons d r1 =>
    cases r1 with
    | nil => rfl
    | cons e r2 => simp [startsTicks, hc]

theorem startsJsonTag_eq_false (l : List Char) (h : startsTicks l = false) :
    startsJsonTag l = false := by
  simp [startsJsonTag, h]

theorem stripTicks_cons (c : Char) (rest : List Char)
    (h : startsTicks (c :: rest) = false) :
    stripTicks (c :: rest) = c :: stripTicks rest := by
  rw [stripTicks.eq_def]
  split
  · rename_i rest1 heq
    injection heq with h1 h2
    subst h1; subst h2
    simp [startsTicks] at h
  · rename_i c2 rest2 hno heq
    injection heq with h1 h2
    subst h1; subst h2
    rfl
  · rename_i heq
    exact List.noConfusion heq

theorem stripJsonTag_cons (c : Char) (rest : List Char)
    (h : startsJsonTag (c :: rest) = false) :
    stripJsonTag (c :: rest) = c :: stripJsonTag rest := by
  rw [stripJsonTag.eq_def]
  split
  · rename_i rest1 heq
    injection heq with h1 h2
    subst h1; subst h2
    simp [startsJsonTag, startsTicks] at h
  · rename_i c2 rest2 hno heq
    injection heq with h1 h2
    subst h1; subst h2
    rfl
  · rename_i heq
    exact List.noConfusion heq

/-- The leading backtick run after deleting every triple is the old run
modulo 3. -/
theorem leadTicks_stripTicks (l : List Char) :
    leadTicks (stripTicks l) = leadTicks l % 3 := by
  induction l using stripTicks.induct with
  | case1 rest ih =>
    have h3 : leadTicks ('`' :: '`' :: '`' :: rest) = 3 + leadTicks rest := by
      simp [leadTicks]; omega
    rw [show stripTicks ('`' :: '`' :: '`' :: rest) = stripTicks rest from rfl,
      ih, h3]
    omega
  | case2 c rest hno ih =>
    have hst : startsTicks (c :: rest) = false := by
      cases rest with
      | nil => rfl
      | cons c2 rest2 =>
        cases rest2 with
        | nil => rfl
        | cons c3 rest3 =>
          by_contra hb
          simp [startsTicks] at hb
          exact hno rest3 hb.1 (by rw [hb.2.1, hb.2.2])
    rw [stripTicks_cons c rest hst]
    by_cases hc : c = '`'
    · subst hc
      have hr2 : leadTicks rest ≤ 1 := by
        cases rest with
        | nil => simp [leadTicks]
        | cons d1 r1 =>
          cases r1 with
          | nil => simp [leadTicks]; split <;> omega
          | cons d2 r2 =>
            by_cases hd1 : d1 = '`'
            · by_cases hd2 : d2 = '`'
              · exact (hno r2 rfl (by rw [hd1, hd2])).elim
              · simp [leadTicks, hd1, hd2]
            · simp [leadTicks, hd1]
      simp only [leadTicks, if_pos]
      rw [ih]
      omega
    · simp [leadTicks, hc]
  | case3 => rfl

theorem startsTicks_false_of_hno (c : Char) (rest : List Char)
    (hno : ∀ rest1, c = '`' → rest = '`' :: '`' :: rest1 → False) :
    startsTicks (c :: rest) = false := by
  cases rest with
  | nil => rfl
  | cons c2 rest2 =>
    cases rest2 with
    | nil => rfl
    | cons c3 rest3 =>
      by_contra hb
      simp [startsTicks] at hb
      exact hno rest3 hb.1 (by rw [hb.2.1, hb.2.2])

theorem leadTicks_le_one_of_hno (rest : List Char)
    (hno : ∀ rest1, rest = '`' :: '`' :: rest1 → False) :
    leadTicks rest ≤ 1 := by
  cases rest with
  | nil => simp [leadTicks]
  | cons d1 r1 =>
    cases r1 with
    | nil => simp [leadTicks]; split <;> omega
    | cons d2 r2 =>
      by_cases hd1 : d1 = '`'
      · by_cases hd2 : d2 = '`'
        · exact (hno r2 (by rw [hd1, hd2])).elim
        · simp [leadTicks, hd1, hd2]
      · simp [leadTicks, hd1]

theorem startsTicks_leadTicks (l : List Char) (h : startsTicks l = true) :
    3 ≤ leadTicks l := by
  cases l with
  | nil => simp [startsTicks] at h
  | cons c1 r1 =>
    cases r1 with
    | nil => simp [startsTicks] at h
    | cons c2 r2 =>
      cases r2 with
      | nil => simp [startsTicks] at h
      | cons c3 r3 =>
        simp only [startsTicks, Bool.and_eq_true, decide_eq_true_eq] at h
        obtain ⟨⟨h1, h2⟩, h3⟩ := h
        subst h1; subst h2; subst h3
        simp [leadTicks]
        omega

/-- After deleting every backtick triple, no backtick triple remains. -/
theorem hasTB_stripTicks (l : List Char) : hasTB (stripTicks l) = false := by
  induction l using stripTicks.induct with
  | case1 rest ih => exact ih
  | case2 c rest hno ih =>
    have hst : startsTicks (c :: rest) = false := startsTicks_false_of_hno c rest hno
    rw [stripTicks_cons c rest hst]
    have hsts : startsTicks (c :: stripTicks rest) = false := by
      by_cases hc : c = '`'
      · subst hc
        have hr1 : leadTicks rest ≤ 1 :=
          leadTicks_le_one_of_hno rest (fun r1 hr => hno r1 rfl hr)
        have hr2 : leadTicks (stripTicks rest) ≤ 1 := by
          rw [leadTicks_stripTicks]; omega
        cases hb : startsTicks ('`' :: stripTicks rest) with
        | false => rfl
        | true =>
          have h3 := startsTicks_leadTicks _ hb
          simp [leadTicks] at h3
          omega
      · exact startsTicks_cons_ne c _ hc
    simp [hasTB, hsts, ih]
  | case3 => rfl

theorem startsTicks_append_close_false (c : Char) (rest : List Char)
    (hs : startsTicks (c :: rest) = false) :
    startsTicks (c :: (rest ++ ('\n' :: '`' :: '`' :: '`' :: []))) = false := by
  cases rest with
  | nil => simp [startsTicks]
  | cons d r1 =>
    cases r1 with
    | nil => simp [startsTicks]
    | cons e r2 =>
      have heq : startsTicks (c :: ((d :: e :: r2) ++ ('\n' :: '`' :: '`' :: '`' :: []))) =
          startsTicks (c :: d :: e :: r2) := by
        simp [startsTicks]
      rw [heq, hs]

theorem hasJsonTag_append_close (mid : List Char) (h : hasTB mid = false) :
    hasJsonTag (mid ++ ('\n' :: '`' :: '`' :: '`' :: [])) = false := by
  induction mid with
  | nil => rfl
  | cons c rest ih =>
    simp only [hasTB, Bool.or_eq_false_iff] at h
    obtain ⟨hs, ht⟩ := h
    simp only [List.cons_append, hasJsonTag, Bool.or_eq_false_iff]
    exact ⟨startsJsonTag_eq_false _ (startsTicks_append_close_false c rest hs),
      ih ht⟩

theorem stripJsonTag_id (l : List Char) (h : hasJsonTag l = false) :
    stripJsonTag l = l := by
  induction l with
  | nil => rfl
  | cons c rest ih =>
    simp only [hasJsonTag, Bool.or_eq_false_iff] at h
    obtain ⟨hs, ht⟩ := h
    rw [stripJsonTag_cons c rest hs, ih ht]

theorem stripTicks_append_close (mid : List Char) (h : hasTB mid = false) :
    stripTicks (mid ++ ('\n' :: '`' :: '`' :: '`' :: [])) = mid ++ ['\n'] := by
  induction mid with
  | nil => rfl
  | cons c rest ih =>
    simp only [hasTB, Bool.or_eq_false_iff] at h
    obtain ⟨hs, ht⟩ := h
    rw [List.cons_append,
      stripTicks_cons c _ (startsTicks_append_close_false c rest hs), ih ht,
      List.cons_append]

theorem pstrip_eq_self_of (l : List Char)
    (h1 : l.dropWhile pyIsSpace = l)
    (h2 : l.reverse.dropWhile pyIsSpace = l.reverse) : pstrip l = l := by
  unfold pstrip
  rw [h1, h2, List.reverse_reverse]

theorem dropWhile_cons_no_space (c : Char) (l : List Char)
    (h : pyIsSpace c = false) :
    (c :: l).dropWhile pyIsSpace = c :: l := by
  rw [List.dropWhile_cons, h]
  simp

theorem pstrip_wrap (pre : List Char) (mid : List Char)
    (hpre : ∀ l, (pre ++ l).dropWhile pyIsSpace = pre ++ l) :
    pstrip (pre ++ (mid ++ ('\n' :: '`' :: '`' :: '`' :: []))) =
      pre ++ (mid ++ ('\n' :: '`' :: '`' :: '`' :: [])) := by
  apply pstrip_eq_self_of
  · exact hpre _
  · have hsh : (pre ++ (mid ++ ('\n' :: '`' :: '`' :: '`' :: []))).reverse =
        '`' :: ('`' :: '`' :: '\n' :: mid.reverse ++ pre.reverse) := by
      simp
    rw [hsh]
    exact dropWhile_cons_no_space _ _ (by decide)

theorem trimWs_newline_wrap (mid : List Char) :
    trimWs ('\n' :: (mid ++ ['\n'])) = trimWs mid := by
  unfold trimWs
  have h1 : ('\n' :: (mid ++ ['\n'])).dropWhile isJsonWs =
      (mid ++ ['\n']).dropWhile isJsonWs := by
    rw [List.dropWhile_cons]
    simp [isJsonWs]
  rw [h1, List.dropWhile_append]
  by_cases hE : (mid.dropWhile isJsonWs).isEmpty
  · simp [hE]
    rw [List.isEmpty_iff] at hE
    rw [hE]
    simp [isJsonWs]
  · simp [hE]
    rw [List.dropWhile_cons]
    simp [isJsonWs]

theorem json_loads_newline_wrap (mid : List Char) :
    json_loads ('\n' :: (mid ++ ['\n'])) = json_loads mid := by
  unfold json_loads
  rw [trimWs_newline_wrap]

/-! ## The claims -/

/-- C1: For every JSON payload that decodes to an array of N records with
10 <= N <= 100 where every record's time field parses to a timestamp, the
pipeline accepts and produces exactly N records ordered non-decreasing by
parsed time, with 1-based sequence labels assigned from final position
(1..N), not from any payload field. -/
theorem accepted_payload_sorted_and_relabeled
    (toDT : J → Option Int) (raw : List Char) (data : List J) (N : Nat)
    (hdec : json_loads (preprocess raw) = some (J.arr data))
    (hN : data.length = N) (hlo : 10 ≤ N) (hhi : N ≤ 100)
    (hall : ∀ r ∈ data, (timeVal toDT r).isSome = true) :
    ∃ rows, fullPipeline toDT raw = Result.accepted rows ∧
      rows.length = N ∧
      (rows.map Prod.fst).Perm data ∧
      List.Pairwise (fun a b => sortKey toDT a ≤ sortKey toDT b)
        (rows.map Prod.fst) ∧
      rows.map Prod.snd = List.range' 1 N := by
  have hkey : ∃ r ∈ data, (getField r timeKey).isSome := by
    have hlen : data ≠ [] := by
      intro h; rw [h] at hN; simp at hN; omega
    rcases List.exists_mem_of_ne_nil data hlen with ⟨r, hr⟩
    refine ⟨r, hr, ?_⟩
    have := hall r hr
    unfold timeVal at this
    cases hg : getField r timeKey with
    | none => rw [hg] at this; simp [Option.bind] at this
    | some j => rfl
  have hfilter : data.filter (fun r => (timeVal toDT r).isSome) = data :=
    List.filter_eq_self.mpr hall
  haveI : IsTotal J (fun a b => sortKey toDT a ≤ sortKey toDT b) :=
    ⟨fun a b => Int.le_total _ _⟩
  haveI : IsTrans J (fun a b => sortKey toDT a ≤ sortKey toDT b) :=
    ⟨fun _ _ _ => Int.le_trans⟩
  have hperm : (data.insertionSort
      (fun a b => sortKey toDT a ≤ sortKey toDT b)).Perm data :=
    List.perm_insertionSort _ _
  have hobj : ∀ r ∈ data, isObj r = true :=
    fun r hr => isObj_of_timeVal_isSome toDT r (hall r hr)
  refine ⟨_, by rw [fullPipeline_eq_validate toDT raw data hdec,
    validate_eq_accepted toDT _ data (by unfold MIN_EVENTS; omega)
      (by unfold MAX_EVENTS; omega) hobj hkey], ?_, ?_, ?_, ?_⟩
  · rw [attachSeq_length, hfilter, hperm.length_eq, hN]
  · rw [attachSeq_map_fst, hfilter]; exact hperm
  · rw [attachSeq_map_fst, hfilter]
    exact List.sorted_insertionSort _ data
  · rw [attachSeq_map_snd, hfilter, hperm.length_eq, hN]

set_option maxRecDepth 10000 in
/-- Witness for C1 at a concrete ten-record payload in descending time
order. -/
theorem accepted_payload_sorted_and_relabeled_witness :
    (json_loads (preprocess rawC1) = some (J.arr dataC1) ∧
     dataC1.length = 10 ∧
     ∀ r ∈ dataC1, (timeVal cdt r).isSome = true) ∧
    (∃ rows, fullPipeline cdt rawC1 = Result.accepted rows ∧
      rows.length = 10 ∧
      (rows.map Prod.fst).Perm dataC1 ∧
      List.Pairwise (fun a b => sortKey cdt a ≤ sortKey cdt b)
        (rows.map Prod.fst) ∧
      rows.map Prod.snd = List.range' 1 10) :=
  ⟨⟨rfl, rfl, by decide⟩,
   accepted_payload_sorted_and_relabeled cdt rawC1 dataC1 10 rfl rfl
     (by decide) (by decide) (by decide)⟩

set_option maxRecDepth 10000 in
/-- C2 counterexample: two in-bounds decoded payloads pass both cardinality
checks yet end in a pipeline-level error with no final set — ten records
none of which has the time key (`df['เวลา']` raises `KeyError`), and nine
keyed records plus one `null` (`pd.DataFrame` raises `AttributeError` on
the non-dict); both are caught by the generic handler. -/
theorem no_time_column_processing_error :
    fullPipeline cdt rawC2cex = Result.processingError rawC2cex ∧
    fullPipeline cdt rawC2mixed = Result.processingError rawC2mixed :=
  ⟨rfl, rfl⟩

/-- C2 amended: the cardinality bounds are evaluated against the originally
parsed record count before any record is dropped; provided every decoded
element is a JSON object and at least one carries the time key — otherwise
the DataFrame stage raises and a generic processing error is shown —
records whose time does not parse are then silently removed and the
remaining (possibly fewer than 10) records are returned with no
pipeline-level error. -/
theorem bounds_precede_row_drops
    (toDT : J → Option Int) (raw : List Char) (data : List J)
    (hdec : json_loads (preprocess raw) = some (J.arr data))
    (hlo : 10 ≤ data.length) (hhi : data.length ≤ 100)
    (hobj : ∀ r ∈ data, isObj r = true)
    (hkey : ∃ r ∈ data, (getField r timeKey).isSome) :
    ∃ rows, fullPipeline toDT raw = Result.accepted rows ∧
      rows.length =
        (data.filter (fun r => (timeVal toDT r).isSome)).length ∧
      (rows.map Prod.fst).Perm
        (data.filter (fun r => (timeVal toDT r).isSome)) := by
  have hperm : ((data.filter (fun r => (timeVal toDT r).isSome)).insertionSort
      (fun a b => sortKey toDT a ≤ sortKey toDT b)).Perm
      (data.filter (fun r => (timeVal toDT r).isSome)) :=
    List.perm_insertionSort _ _
  refine ⟨_, by rw [fullPipeline_eq_validate toDT raw data hdec,
    validate_eq_accepted toDT _ data (by unfold MIN_EVENTS; omega)
      (by unfold MAX_EVENTS; omega) hobj hkey], ?_, ?_⟩
  · rw [attachSeq_length, hperm.length_eq]
  · rw [attachSeq_map_fst]; exact hperm

set_option maxRecDepth 10000 in
/-- Witness for the amended C2 at a twelve-record payload with four
unparseable times: the checks see 12, the final set has 8 rows. -/
theorem bounds_precede_row_drops_witness :
    (json_loads (preprocess rawC2) = some (J.arr dataC2) ∧
     dataC2.length = 12 ∧
     (∀ r ∈ dataC2, isObj r = true) ∧
     (dataC2.filter (fun r => (timeVal cdt r).isSome)).length = 8) ∧
    (∃ rows, fullPipeline cdt rawC2 = Result.accepted rows ∧
      rows.length =
        (dataC2.filter (fun r => (timeVal cdt r).isSome)).length ∧
      (rows.map Prod.fst).Perm
        (dataC2.filter (fun r => (timeVal cdt r).isSome))) :=
  ⟨⟨rfl, rfl, by decide, rfl⟩,
   bounds_precede_row_drops cdt rawC2 dataC2 rfl (by decide) (by decide)
     (by decide) (by decide)⟩

/-- C4 counterexample: an empty decoded array (count 0) is rejected by the
`count < 10` branch as "insufficient data", not by the separate "no data
found" branch, which is unreachable. -/
theorem zero_records_hits_insufficient_branch :
    fullPipeline cdt "[]".data = Result.insufficient "[]".data 0 ∧
    fullPipeline cdt "[]".data ≠ Result.noData "[]".data := by
  have h0 : fullPipeline cdt "[]".data = Result.insufficient "[]".data 0 := rfl
  refine ⟨h0, ?_⟩
  rw [h0]
  intro h
  exact Result.noConfusion h

/-- C4 amended: count < 10 (including 0) yields the "insufficient data"
outcome and count > 100 the "excessive data" outcome, each halting with no
table; the "no data found" branch can never be reached, because a zero
count already satisfies count < 10. -/
theorem cardinality_branches (toDT : J → Option Int) (disp : List Char)
    (data : List J) :
    (data.length < MIN_EVENTS →
      validate toDT disp data = Result.insufficient disp data.length) ∧
    (data.length > MAX_EVENTS →
      validate toDT disp data = Result.excessive disp data.length) ∧
    (∀ d, validate toDT disp data ≠ Result.noData d) := by
  refine ⟨?_, ?_, ?_⟩
  · intro h; unfold validate; simp [h]
  · intro h
    have h1 : ¬ data.length < MIN_EVENTS := by
      unfold MIN_EVENTS; unfold MAX_EVENTS at h; omega
    unfold validate; simp [h1, h]
  · intro d h
    unfold validate at h
    by_cases h1 : data.length < MIN_EVENTS
    · simp [h1] at h
    · by_cases h2 : data.length > MAX_EVENTS
      · simp [h1, h2] at h
      · have h0 : ¬ data.length = 0 := by unfold MIN_EVENTS at h1; omega
        by_cases h4 : data.all (fun r => isObj r)
        · by_cases h3 : data.all (fun r => (getField r timeKey).isNone)
          · simp [h1, h2, h0, h4, h3] at h
          · simp [h1, h2, h0, h4, h3] at h
        · simp [h1, h2, h0, h4] at h

/-- Witness for the amended C4: an empty record list is "insufficient", a
101-record list is "excessive", and neither run lands in the "no data"
branch. -/
theorem cardinality_branches_witness :
    validate cdt [] [] = Result.insufficient [] 0 ∧
    validate cdt [] (List.replicate 101 J.null) =
      Result.excessive [] (List.replicate 101 J.null).length ∧
    validate cdt [] [] ≠ Result.noData [] :=
  ⟨(cardinality_branches cdt [] []).1 (by decide),
   (cardinality_branches cdt [] (List.replicate 101 J.null)).2.1
     (by simp [MAX_EVENTS]),
   (cardinality_branches cdt [] []).2.2 []⟩

/-- C5 counterexample: with the event-type translation empty and the
location translation non-empty (so not both empty), the pipeline
nevertheless halts after the translation stage. -/
theorem halts_when_one_translation_empty :
    translateStage svcC5 "a" "b" = none ∧
    translate_to_english svcC5 "a" = "" ∧
    translate_to_english svcC5 "b" = "B" := by
  refine ⟨?_, rfl, rfl⟩
  rfl

/-- C5 amended: a Generation Service failure during a translation call
falls back to the untranslated original text rather than aborting, and the
overall pipeline halts after the translation stage exactly when at least
one of the two required translations is empty (not only when both are). -/
theorem translation_fallback_and_halt
    (svc : String → Except String String) (e l : String) :
    (∀ t err, svc (translatePrompt t) = Except.error err →
      translate_to_english svc t = t) ∧
    (translateStage svc e l = none ↔
      (translate_to_english svc e = "" ∨ translate_to_english svc l = "")) := by
  constructor
  · intro t err herr
    unfold translate_to_english
    rw [herr]
  · unfold translateStage
    by_cases he : translate_to_english svc e = ""
    · simp [he]
    · by_cases hl : translate_to_english svc l = ""
      · simp [he, hl]
      · simp [he, hl]

/-- Witness for the amended C5: a failing service falls back to the
original Thai text, and a run with both translations non-empty does not
halt. -/
theorem translation_fallback_and_halt_witness :
    translate_to_english svcBoom "x" = "x" ∧
    (translateStage svcBoom "x" "y" = none ↔
      (translate_to_english svcBoom "x" = "" ∨
       translate_to_english svcBoom "y" = "")) :=
  ⟨(translation_fallback_and_halt svcBoom "x" "y").1 "x" "boom" rfl,
   (translation_fallback_and_halt svcBoom "x" "y").2⟩

set_option maxRecDepth 10000 in
/-- C6 counterexample: a fenced nine-record payload is rejected as
insufficient, but the displayed text is the fence-stripped text, which
differs from the raw generated text. -/
theorem fenced_reject_displays_stripped_text :
    fullPipeline cdt rawC6cex = Result.insufficient dispC6cex 9 ∧
    dispC6cex ≠ rawC6cex := by
  refine ⟨rfl, ?_⟩
  intro h
  exact absurd (congrArg List.length h) (by decide)

/-- C6 amended: on a cardinality rejection the displayed text is
`json_output` after stripping — it equals the raw generated text exactly
when that text has no surrounding whitespace and does not begin with a
fence marker; a fenced payload is displayed with its markers removed. -/
theorem unfenced_reject_displays_raw
    (toDT : J → Option Int) (raw : List Char) (data : List J)
    (hs : pstrip raw = raw) (hf : startsTicks raw = false)
    (hdec : json_loads raw = some (J.arr data)) :
    (data.length < MIN_EVENTS →
      fullPipeline toDT raw = Result.insufficient raw data.length) ∧
    (data.length > MAX_EVENTS →
      fullPipeline toDT raw = Result.excessive raw data.length) := by
  have hpre : preprocess raw = raw := by
    simp [preprocess, hs, hf]
  have hdec2 : json_loads (preprocess raw) = some (J.arr data) := by
    rw [hpre]; exact hdec
  rw [fullPipeline_eq_validate toDT raw data hdec2, hpre]
  constructor
  · intro h; unfold validate; simp [h]
  · intro h
    have h1 : ¬ data.length < MIN_EVENTS := by
      unfold MIN_EVENTS; unfold MAX_EVENTS at h; omega
    unfold validate; simp [h1, h]

set_option maxRecDepth 10000 in
/-- Witness for the amended C6: an unfenced, unpadded nine-record payload
is rejected with the raw text displayed unchanged. -/
theorem unfenced_reject_displays_raw_witness :
    (pstrip rawC6w = rawC6w ∧ startsTicks rawC6w = false ∧
     json_loads rawC6w = some (J.arr dataC6w) ∧ dataC6w.length < MIN_EVENTS) ∧
    fullPipeline cdt rawC6w = Result.insufficient rawC6w dataC6w.length :=
  ⟨⟨rfl, rfl, rfl, by decide⟩,
   (unfenced_reject_displays_raw cdt rawC6w dataC6w rfl rfl rfl).1
     (by decide)⟩

set_option maxRecDepth 10000 in
/-- C7 counterexample: a record missing the required source field is not
detected or reported — the pipeline accepts, the record reaches the output
rows, and its cell is a `NaN` fill. -/
theorem missing_source_field_passes_through :
    fullPipeline cdt rawC7 = Result.accepted (attachSeq 1 dataC7) ∧
    (recT "2023-01", 1) ∈ attachSeq 1 dataC7 ∧
    getField (recT "2023-01") "แหล่งที่มา" = none ∧
    displayCell dataC7 (recT "2023-01") "แหล่งที่มา" = DCell.nan :=
  ⟨rfl, List.Mem.head _, rfl, rfl⟩

/-- C7 amended: the Validator performs no required-field check — a record
missing a required schema field (other than the time field) passes to the
accepted output, its cell rendered as a `NaN` when some other record
supplies the column and as the reindex fill `''` when none does. -/
theorem missing_field_filled_not_reported
    (toDT : J → Option Int) (raw : List Char) (data : List J) (r : J)
    (c : String)
    (hdec : json_loads (preprocess raw) = some (J.arr data))
    (hlo : 10 ≤ data.length) (hhi : data.length ≤ 100)
    (hall : ∀ x ∈ data, (timeVal toDT x).isSome = true)
    (hr : r ∈ data) (_hc : c ∈ display_cols) (hmiss : getField r c = none) :
    ∃ rows, fullPipeline toDT raw = Result.accepted rows ∧
      r ∈ rows.map Prod.fst ∧
      (displayCell data r c = DCell.nan ∨
       displayCell data r c = DCell.empty) := by
  have hkey : ∃ x ∈ data, (getField x timeKey).isSome := by
    refine ⟨r, hr, ?_⟩
    have := hall r hr
    unfold timeVal at this
    cases hg : getField r timeKey with
    | none => rw [hg] at this; simp [Option.bind] at this
    | some j => rfl
  have hobj : ∀ x ∈ data, isObj x = true :=
    fun x hx => isObj_of_timeVal_isSome toDT x (hall x hx)
  refine ⟨_, by rw [fullPipeline_eq_validate toDT raw data hdec,
    validate_eq_accepted toDT _ data (by unfold MIN_EVENTS; omega)
      (by unfold MAX_EVENTS; omega) hobj hkey], ?_, ?_⟩
  · rw [attachSeq_map_fst]
    exact (List.perm_insertionSort _ _).mem_iff.mpr
      (List.mem_filter.mpr ⟨hr, hall r hr⟩)
  · unfold displayCell
    by_cases hp : columnPresent data c
    · left; simp [hp, hmiss]
    · right; simp [hp]

set_option maxRecDepth 10000 in
/-- Witness for the amended C7 at the concrete ten-record payload whose
first record lacks the source column. -/
theorem missing_field_filled_not_reported_witness :
    (json_loads (preprocess rawC7) = some (J.arr dataC7) ∧
     dataC7.length = 10 ∧
     recT "2023-01" ∈ dataC7 ∧ "แหล่งที่มา" ∈ display_cols ∧
     getField (recT "2023-01") "แหล่งที่มา" = none) ∧
    (∃ rows, fullPipeline cdt rawC7 = Result.accepted rows ∧
      recT "2023-01" ∈ rows.map Prod.fst ∧
      (displayCell dataC7 (recT "2023-01") "แหล่งที่มา" = DCell.nan ∨
       displayCell dataC7 (recT "2023-01") "แหล่งที่มา" = DCell.empty)) :=
  ⟨⟨rfl, rfl, List.Mem.head _, by decide, rfl⟩,
   missing_field_filled_not_reported cdt rawC7 dataC7 (recT "2023-01")
     "แหล่งที่มา" rfl (by decide) (by decide) (by decide) (List.Mem.head _)
     (by decide) rfl⟩

/-- C3 amended: for fences whose tag is exactly the lowercase `json` or
absent, and payload content without triple backticks, the parser removes
exactly the fence markers; the leftover newline separators are JSON
whitespace, so the decoded result equals decoding the payload without the
markers. -/
theorem lowercase_or_bare_fence_stripped (mid : List Char)
    (hmid : hasTB mid = false) :
    preprocess (jsonFenceWrap mid) = '\n' :: (mid ++ ['\n']) ∧
    preprocess (bareFenceWrap mid) = '\n' :: (mid ++ ['\n']) ∧
    json_loads ('\n' :: (mid ++ ['\n'])) = json_loads mid := by
  have hid : stripJsonTag (mid ++ ('\n' :: '`' :: '`' :: '`' :: [])) =
      mid ++ ('\n' :: '`' :: '`' :: '`' :: []) :=
    stripJsonTag_id _ (hasJsonTag_append_close mid hmid)
  have hstk : stripTicks (mid ++ ('\n' :: '`' :: '`' :: '`' :: [])) =
      mid ++ ['\n'] := stripTicks_append_close mid hmid
  refine ⟨?_, ?_, json_loads_newline_wrap mid⟩
  · have hw : jsonFenceWrap mid =
        ['`', '`', '`', 'j', 's', 'o', 'n', '\n'] ++
          (mid ++ ('\n' :: '`' :: '`' :: '`' :: [])) := rfl
    have hps : pstrip (jsonFenceWrap mid) = jsonFenceWrap mid := by
      rw [hw]
      exact pstrip_wrap _ mid
        (fun l => dropWhile_cons_no_space '`' _ (by decide))
    have hst : startsTicks (jsonFenceWrap mid) = true := rfl
    have hjt : stripJsonTag (jsonFenceWrap mid) =
        '\n' :: stripJsonTag (mid ++ ('\n' :: '`' :: '`' :: '`' :: [])) := rfl
    have hone : stripTicks ('\n' :: (mid ++ ('\n' :: '`' :: '`' :: '`' :: []))) =
        '\n' :: stripTicks (mid ++ ('\n' :: '`' :: '`' :: '`' :: [])) := rfl
    simp only [preprocess, hps, hst, if_true]
    rw [hjt, hid, hone, hstk]
  · have hw : bareFenceWrap mid =
        ['`', '`', '`', '\n'] ++
          (mid ++ ('\n' :: '`' :: '`' :: '`' :: [])) := rfl
    have hps : pstrip (bareFenceWrap mid) = bareFenceWrap mid := by
      rw [hw]
      exact pstrip_wrap _ mid
        (fun l => dropWhile_cons_no_space '`' _ (by decide))
    have hst : startsTicks (bareFenceWrap mid) = true := rfl
    have hjt : stripJsonTag (bareFenceWrap mid) =
        '`' :: '`' :: '`' :: '\n' ::
          stripJsonTag (mid ++ ('\n' :: '`' :: '`' :: '`' :: [])) := rfl
    have hone : stripTicks ('`' :: '`' :: '`' :: '\n' ::
        (mid ++ ('\n' :: '`' :: '`' :: '`' :: []))) =
        '\n' :: stripTicks (mid ++ ('\n' :: '`' :: '`' :: '`' :: [])) := rfl
    simp only [preprocess, hps, hst, if_true]
    rw [hjt, hid, hone, hstk]

/-- C3 counterexample: with an uppercase language tag the backticks are
deleted but the tag text `JSON` survives, so the decoded result is a
decode failure instead of the payload's decode. -/
theorem uppercase_tag_fence_not_stripped :
    preprocess rawC3cex = "JSON\n[]\n".data ∧
    json_loads (preprocess rawC3cex) = none ∧
    json_loads "[]".data = some (J.arr []) ∧
    preprocess rawC3cex ≠ "[]".data := by
  refine ⟨rfl, rfl, rfl, ?_⟩
  intro h
  exact absurd (congrArg List.length h) (by decide)

/-- Witness for the amended C3 at the payload `[1, 2]`. -/
theorem lowercase_or_bare_fence_stripped_witness :
    hasTB "[1, 2]".data = false ∧
    (preprocess (jsonFenceWrap "[1, 2]".data) =
        '\n' :: ("[1, 2]".data ++ ['\n']) ∧
      preprocess (bareFenceWrap "[1, 2]".data) =
        '\n' :: ("[1, 2]".data ++ ['\n']) ∧
      json_loads ('\n' :: ("[1, 2]".data ++ ['\n'])) =
        json_loads "[1, 2]".data) :=
  ⟨rfl, lowercase_or_bare_fence_stripped "[1, 2]".data rfl⟩

/-- C8 counterexample: the strict-format extraction call does not set the
temperature at all, so it is not the deterministic temperature 0 that the
claim asserts (the translation call does set it). -/
theorem extraction_call_temperature_unset :
    (extractCallConfig "x").temperature = none ∧
    (extractCallConfig "x").temperature ≠ some 0 ∧
    translateCallConfig.temperature = some 0 :=
  ⟨rfl, fun h => Option.noConfusion h, rfl⟩

/-- C8 amended: the translation calls set temperature 0; the research call
and the extraction call leave temperature unset (provider default); the
web-search tool is enabled only for the research call; the extraction call
alone passes a system instruction. -/
theorem call_temperatures_and_search :
    translateCallConfig.temperature = some 0 ∧
    translateCallConfig.google_search = false ∧
    translateCallConfig.system_instruction = none ∧
    researchCallConfig.temperature = none ∧
    researchCallConfig.google_search = true ∧
    researchCallConfig.system_instruction = none ∧
    (∀ s, (extractCallConfig s).temperature = none) ∧
    (∀ s, (extractCallConfig s).google_search = false) ∧
    (∀ s, (extractCallConfig s).system_instruction = some s) :=
  ⟨rfl, rfl, rfl, rfl, rfl, rfl, fun _ => rfl, fun _ => rfl, fun _ => rfl⟩

/-- C9 (modelled from the spec): a header row missing a required column is
rejected with the distinct `MalformedTableError` carrying the raw text. -/
theorem geo_missing_header_malformed (raw header : List Char)
    (body : List (List Char)) (h : String)
    (hsplit : splitCh '\n' raw = header :: body)
    (hreq : h ∈ GEO_HEADERS)
    (hmiss : (splitCh ',' header).contains h.data = false) :
    parseGeoTable raw = GeoResult.malformedTable raw := by
  unfold parseGeoTable
  rw [hsplit]
  have hall : GEO_HEADERS.all
      (fun g => (splitCh ',' header).contains g.data) = false := by
    rw [List.all_eq_false]
    refine ⟨h, hreq, ?_⟩
    intro hcon
    rw [hmiss] at hcon
    exact Bool.noConfusion hcon
  simp only [hall, Bool.false_eq_true, if_false]

/-- Witness for C9 at a header missing `LATITUDE_EST`. -/
theorem geo_missing_header_malformed_witness :
    (splitCh '\n' rawC9 = geoHeaderC9 :: geoBodyC9 ∧
     "LATITUDE_EST" ∈ GEO_HEADERS ∧
     (splitCh ',' geoHeaderC9).contains "LATITUDE_EST".data = false) ∧
    parseGeoTable rawC9 = GeoResult.malformedTable rawC9 :=
  ⟨⟨by decide, by decide, by decide⟩,
   geo_missing_header_malformed rawC9 geoHeaderC9 geoBodyC9 "LATITUDE_EST"
     (by decide) (by decide) (by decide)⟩

/-- C10: when the stripped output begins with a fence, the parser deletes
every occurrence of the tagged and bare fence markers anywhere in the
text, so no triple backtick survives, and the text handed to the decoder
differs from any payload content that contained one. -/
theorem fence_strip_deletes_interior_ticks (raw content : List Char)
    (hf : startsTicks (pstrip raw) = true) (hc : hasTB content = true) :
    hasTB (preprocess raw) = false ∧ preprocess raw ≠ content := by
  have hpre : preprocess raw =
      stripTicks (stripJsonTag (pstrip (pstrip raw))) := by
    simp [preprocess, hf]
  rw [hpre]
  refine ⟨hasTB_stripTicks _, ?_⟩
  intro h
  rw [← h, hasTB_stripTicks] at hc
  exact Bool.noConfusion hc

set_option maxRecDepth 4000 in
/-- Witness for C10 at a fenced payload whose source string value contains
triple backticks. -/
theorem fence_strip_deletes_interior_ticks_witness :
    (startsTicks (pstrip rawC10) = true ∧ hasTB contentC10 = true) ∧
    (hasTB (preprocess rawC10) = false ∧ preprocess rawC10 ≠ contentC10) :=
  ⟨⟨rfl, rfl⟩, fence_strip_deletes_interior_ticks rawC10 contentC10 rfl rfl⟩
